import Mathlib

/-!
Verification development for a client-side CGPA calculator.

The calculator's numeric core consists of:
  * a grade-scale lookup (`getGradePoint`) mapping a percentage to a grade point;
  * a per-subject evaluator (`calculateSubject`) summing component marks, resolving
    an optional "highest marks" override denominator, and producing a grade point
    that is recorded in shared per-session state;
  * an exam-score predictor (`updatePrediction`) computing the ESE marks still
    needed for a 9- or 10-pointer;
  * an SGPA aggregator (`calculateOverallSGPA`) taking the credit-weighted mean of
    recorded grade points;
  * a CGPA aggregator (`calculateCGPA`) taking the credit-weighted mean of
    per-semester SGPA entries.

Numbers are modelled as rationals. A raw form-input string is modelled as an
`EnteredValue`: `empty` for the empty string, `invalid` for a non-empty string
that does not parse as a number, and `num v` for a string parsing to `v`. An
optional numeric input (the highest-marks override and the per-semester
SGPA/credits inputs) is modelled as `Option ℚ`, `none` standing for an empty or
non-numeric entry.
-/

namespace CGPACalc

/-- A raw form-input value: empty string, non-numeric string, or a number. -/
inductive EnteredValue
  | empty
  | invalid
  | num (val : ℚ)
  deriving DecidableEq, Repr

/-- One mark component of a subject: `{name, label, max}` in the catalog. -/
structure SubjectField where
  name : String
  label : String
  max : ℚ
  deriving DecidableEq, Repr

/-- A subject from the catalog: id, display name, credit weight, mark
components, and the default "highest marks" denominator. -/
structure Subject where
  id : ℕ
  name : String
  credits : ℚ
  fields : List SubjectField
  defaultHighest : ℚ
  deriving DecidableEq, Repr

/-- The grade-scale lookup (`getGradePoint` in utils): percentage to grade
point by inclusive lower-bound thresholds. -/
def getGradePoint (percentage : ℚ) : ℚ :=
  if percentage ≥ 80 then 10
  else if percentage ≥ 70 then 9
  else if percentage ≥ 60 then 8
  else if percentage ≥ 55 then 7
  else if percentage ≥ 50 then 6
  else if percentage ≥ 45 then 5
  else if percentage ≥ 40 then 4
  else 0

/-- The field-summing loop of `calculateSubject`: walks the subject's fields in
order, accumulating the total; an empty, non-numeric, negative, or
above-maximum value aborts with `none` (the code's `allFilled = false`). -/
def loopFields (entered : String → EnteredValue) :
    List SubjectField → ℚ → Option ℚ
  | [], total => some total
  | f :: rest, total =>
    match entered f.name with
    | .num v => if v < 0 ∨ v > f.max then none else loopFields entered rest (total + v)
    | _ => none

/-- Resolution of the effective denominator: the override when it parses and is
nonzero, otherwise the subject's `defaultHighest`. -/
def resolveHighest (s : Subject) (override : Option ℚ) : ℚ :=
  match override with
  | none => s.defaultHighest
  | some h => if h = 0 then s.defaultHighest else h

/-- Outcome of evaluating one subject. -/
inductive SubjectResult
  | incompleteOrInvalid
  | highestExceedsDefault (defaultHighest : ℚ)
  | ok (totalMarks percentage gradePoint : ℚ)
  deriving DecidableEq, Repr

/-- The subject evaluator (`calculateSubject` in calculator): sum the fields,
resolve the denominator, reject a denominator above `defaultHighest`, and
otherwise compute percentage and grade point. -/
def calculateSubject (s : Subject) (entered : String → EnteredValue)
    (override : Option ℚ) : SubjectResult :=
  match loopFields entered s.fields 0 with
  | none => .incompleteOrInvalid
  | some total =>
    let highest := resolveHighest s override
    if highest > s.defaultHighest then .highestExceedsDefault s.defaultHighest
    else .ok total (total / highest * 100) (getGradePoint (total / highest * 100))

/-- The grade point `calculateSubject` records in shared state: the computed
grade point on success, 0 on either failure. -/
def recordedGradePoint : SubjectResult → ℚ
  | .ok _ _ gp => gp
  | .incompleteOrInvalid => 0
  | .highestExceedsDefault _ => 0

/-- `updateGradePoint` from the state module: store a grade point against a
subject id in the per-session grade-point map. -/
def updateGradePoint (gps : ℕ → Option ℚ) (subjectId : ℕ) (gp : ℚ) :
    ℕ → Option ℚ :=
  fun i => if i = subjectId then some gp else gps i

/-- `calculateSubject` together with its side effect on the per-session
grade-point map. -/
def calculateSubjectRun (gps : ℕ → Option ℚ) (s : Subject)
    (entered : String → EnteredValue) (override : Option ℚ) :
    SubjectResult × (ℕ → Option ℚ) :=
  let r := calculateSubject s entered override
  (r, updateGradePoint gps s.id (recordedGradePoint r))

/-- The accumulation loop of `calculateOverallSGPA`: running pair of
(total credit points, total credits), a subject with no recorded grade point
contributing 0 grade points but full credits. -/
def sgpaFold (gps : ℕ → Option ℚ) (subjects : List Subject) : ℚ × ℚ :=
  subjects.foldl
    (fun acc s => (acc.1 + ((gps s.id).getD 0) * s.credits, acc.2 + s.credits))
    (0, 0)

/-- The SGPA aggregation of `calculateOverallSGPA`: total credit points over
total credits. -/
def calculateOverallSGPA (gps : ℕ → Option ℚ) (subjects : List Subject) : ℚ :=
  (sgpaFold gps subjects).1 / (sgpaFold gps subjects).2

/-- One semester row on the CGPA screen: semester number and the parsed SGPA
and credits inputs (`none` for blank or non-numeric). -/
structure SemEntry where
  sem : ℕ
  sgpa : Option ℚ
  credits : Option ℚ
  deriving DecidableEq, Repr

/-- Outcome of the CGPA computation. -/
inductive CGPAResult
  | noValidSemesters
  | sgpaOutOfRange (sem : ℕ)
  | ok (cgpa : ℚ)
  deriving DecidableEq, Repr

/-- The semester loop of `calculateCGPA`: an entry with both values numeric,
sgpa > 0 and credits > 0 is checked for sgpa > 10 (hard abort) and otherwise
accumulated; all other entries are skipped. After the loop: no accumulated
entry means `noValidSemesters`, otherwise the weighted mean. -/
def cgpaLoop : List SemEntry → ℚ → ℚ → ℕ → CGPAResult
  | [], totCP, totCred, n =>
    if n = 0 then .noValidSemesters else .ok (totCP / totCred)
  | e :: rest, totCP, totCred, n =>
    match e.sgpa, e.credits with
    | some s, some c =>
      if 0 < s ∧ 0 < c then
        if 10 < s then .sgpaOutOfRange e.sem
        else cgpaLoop rest (totCP + s * c) (totCred + c) (n + 1)
      else cgpaLoop rest totCP totCred n
    | _, _ => cgpaLoop rest totCP totCred n

/-- `calculateCGPA` from main: run the semester loop from empty accumulators. -/
def calculateCGPA (entries : List SemEntry) : CGPAResult :=
  cgpaLoop entries 0 0 0

/-- Spec-side filter: the entries `calculateCGPA` accumulates, namely both
values numeric with sgpa > 0 and credits > 0. -/
def passesFilter (e : SemEntry) : Bool :=
  match e.sgpa, e.credits with
  | some s, some c => decide (0 < s ∧ 0 < c)
  | _, _ => false

/-- The numeric sgpa of an entry, 0 when blank or non-numeric. -/
def entrySgpa (e : SemEntry) : ℚ := e.sgpa.getD 0

/-- The numeric credits of an entry, 0 when blank or non-numeric. -/
def entryCredits (e : SemEntry) : ℚ := e.credits.getD 0

/-- Spec-side validity of a single field entry for the evaluator: present,
numeric, non-negative, and at most the field's max. -/
def validEntry (e : EnteredValue) (maxVal : ℚ) : Bool :=
  match e with
  | .num v => decide (0 ≤ v ∧ v ≤ maxVal)
  | _ => false

/-- The numeric value of an entry, 0 when empty or non-numeric. -/
def entryVal : EnteredValue → ℚ
  | .num v => v
  | _ => 0

/-- Verdict of the predictor for one target grade point. -/
inductive Verdict
  | secured
  | need (marks : ℤ)
  | notPossible
  deriving DecidableEq, Repr

/-- Output of `updatePrediction`: nothing shown, or the 10-pointer and
9-pointer verdicts together. -/
inductive Prediction
  | empty
  | result (for10 for9 : Verdict)
  deriving DecidableEq, Repr

/-- The per-target branch of `updatePrediction`: achievable within the ESE max
or not; within it, already secured when nothing more is needed. -/
def predVerdict (needed : ℤ) (eseMax : ℚ) : Verdict :=
  if (needed : ℚ) ≤ eseMax then
    (if needed ≤ 0 then .secured else .need needed)
  else .notPossible

/-- One step of the non-ESE accumulation loop of `updatePrediction`: a filled
non-ESE field sets the any-filled flag even when non-numeric; only numeric
values are added to the running total. -/
def predStep (entered : String → EnteredValue) (acc : ℚ × Bool)
    (f : SubjectField) : ℚ × Bool :=
  if f.name ≠ "ese" then
    match entered f.name with
    | .empty => acc
    | .invalid => (acc.1, true)
    | .num v => (acc.1 + v, true)
  else acc

/-- The non-ESE accumulation loop of `updatePrediction`: running pair of
(current total, any field filled). -/
def predictionAccum (s : Subject) (entered : String → EnteredValue) : ℚ × Bool :=
  s.fields.foldl (predStep entered) (0, false)

/-- The exam-score predictor (`updatePrediction` in calculator): only for
subjects with an "ese" field, only before the ESE input is filled, and only
once some non-ESE field is filled; then the ceilings of 80% and 70% of the
resolved denominator minus the current total, each turned into a verdict. -/
def updatePrediction (s : Subject) (entered : String → EnteredValue)
    (override : Option ℚ) : Prediction :=
  match s.fields.find? (fun f => f.name == "ese") with
  | none => .empty
  | some eseField =>
    if entered "ese" ≠ .empty then .empty
    else
      let acc := predictionAccum s entered
      if acc.2 = false then .empty
      else
        let highest := resolveHighest s override
        let needFor10 : ℤ := ⌈(0.8 : ℚ) * highest - acc.1⌉
        let needFor9 : ℤ := ⌈(0.7 : ℚ) * highest - acc.1⌉
        .result (predVerdict needFor10 eseField.max) (predVerdict needFor9 eseField.max)

/-! Concrete inputs used by witnesses and counterexamples. -/

/-- A two-component subject: ISE out of 20, ESE out of 80, default highest 100. -/
def exSubject : Subject :=
  { id := 1, name := "Sub", credits := 3,
    fields := [⟨"ise", "ISE (20)", 20⟩, ⟨"ese", "ESE (80)", 80⟩],
    defaultHighest := 100 }

/-- Entered marks: ISE 18, ESE 65. -/
def exEnteredFull : String → EnteredValue := fun n =>
  if n = "ise" then .num 18 else if n = "ese" then .num 65 else .empty

/-- Entered marks: ISE 18, ESE left empty. -/
def exEnteredPartial : String → EnteredValue := fun n =>
  if n = "ise" then .num 18 else .empty

/-- Entered marks: ISE 15 only (prediction scenario). -/
def exEnteredPred : String → EnteredValue := fun n =>
  if n = "ise" then .num 15 else .empty

/-! Grade scale. -/

set_option maxHeartbeats 1000000 in
theorem getGradePoint_mono (p q : ℚ) (h : p ≤ q) :
    getGradePoint p ≤ getGradePoint q := by
  unfold getGradePoint
  split_ifs <;> linarith

/-- Claim C1: `getGradePoint` equals the fixed threshold table (10 for p ≥ 80,
9 for 70 ≤ p < 80, 8 for 60 ≤ p < 70, 7 for 55 ≤ p < 60, 6 for 50 ≤ p < 55,
5 for 45 ≤ p < 50, 4 for 40 ≤ p < 45, 0 for 0 ≤ p < 40), does not clamp to
[0,100] (p > 100 still maps to 10), is total, is monotonic non-decreasing, and
takes the stated values at 80, 79.999, 39.999 and 40. -/
theorem C1_gradeScale_table :
    (∀ p : ℚ, 80 ≤ p → getGradePoint p = 10) ∧
    (∀ p : ℚ, 70 ≤ p → p < 80 → getGradePoint p = 9) ∧
    (∀ p : ℚ, 60 ≤ p → p < 70 → getGradePoint p = 8) ∧
    (∀ p : ℚ, 55 ≤ p → p < 60 → getGradePoint p = 7) ∧
    (∀ p : ℚ, 50 ≤ p → p < 55 → getGradePoint p = 6) ∧
    (∀ p : ℚ, 45 ≤ p → p < 50 → getGradePoint p = 5) ∧
    (∀ p : ℚ, 40 ≤ p → p < 45 → getGradePoint p = 4) ∧
    (∀ p : ℚ, 0 ≤ p → p < 40 → getGradePoint p = 0) ∧
    (∀ p : ℚ, 100 < p → getGradePoint p = 10) ∧
    (∀ p q : ℚ, p ≤ q → getGradePoint p ≤ getGradePoint q) ∧
    getGradePoint 80 = 10 ∧ getGradePoint (79999/1000) = 9 ∧
    getGradePoint (39999/1000) = 0 ∧ getGradePoint 40 = 4 := by
  refine ⟨?_, ?_, ?_, ?_, ?_, ?_, ?_, ?_, ?_, getGradePoint_mono, ?_, ?_, ?_, ?_⟩ <;>
    first
      | (intro p hp; unfold getGradePoint; split_ifs <;> first | rfl | linarith)
      | (intro p hp hp'; unfold getGradePoint; split_ifs <;> first | rfl | linarith)
      | (unfold getGradePoint; norm_num)

/-- Witness for C1 at concrete percentages. -/
theorem C1_gradeScale_table_witness :
    getGradePoint 85 = 10 ∧ getGradePoint 41 = 4 :=
  ⟨C1_gradeScale_table.1 85 (by norm_num),
   C1_gradeScale_table.2.2.2.2.2.2.1 41 (by norm_num) (by norm_num)⟩

/-! Subject evaluator. -/

theorem loopFields_of_all_valid (entered : String → EnteredValue) :
    ∀ (fields : List SubjectField) (t : ℚ),
      (∀ f ∈ fields, validEntry (entered f.name) f.max = true) →
      loopFields entered fields t =
        some (t + (fields.map (fun f => entryVal (entered f.name))).sum) := by
  intro fields
  induction fields with
  | nil => intro t _; simp [loopFields]
  | cons f rest ih =>
    intro t h
    have hf := h f (List.mem_cons_self f rest)
    cases he : entered f.name with
    | empty => rw [he] at hf; simp [validEntry] at hf
    | invalid => rw [he] at hf; simp [validEntry] at hf
    | num v =>
      rw [he] at hf
      have hv : 0 ≤ v ∧ v ≤ f.max := by simpa [validEntry] using hf
      have hcond : ¬(v < 0 ∨ v > f.max) := by push_neg; exact ⟨hv.1, hv.2⟩
      simp only [loopFields, he, if_neg hcond]
      rw [ih (t + v) (fun g hg => h g (List.mem_cons_of_mem f hg))]
      simp only [List.map_cons, List.sum_cons, he, entryVal]
      ring_nf

theorem loopFields_of_invalid (entered : String → EnteredValue) :
    ∀ (fields : List SubjectField) (t : ℚ),
      (∃ f ∈ fields, validEntry (entered f.name) f.max = false) →
      loopFields entered fields t = none := by
  intro fields
  induction fields with
  | nil => intro t h; simp at h
  | cons f rest ih =>
    intro t h
    rcases h with ⟨g, hg, hbad⟩
    cases he : entered f.name with
    | empty => simp [loopFields, he]
    | invalid => simp [loopFields, he]
    | num v =>
      by_cases hcond : v < 0 ∨ v > f.max
      · simp [loopFields, he, hcond]
      · simp only [loopFields, he, if_neg hcond]
        rcases List.mem_cons.mp hg with rfl | hg'
        · exfalso
          rw [he] at hbad
          push_neg at hcond
          simp [validEntry, hcond.1, hcond.2] at hbad
        · exact ih (t + v) ⟨g, hg', hbad⟩

theorem calculateSubject_ok_of_valid (s : Subject)
    (entered : String → EnteredValue) (override : Option ℚ)
    (hvalid : ∀ f ∈ s.fields, validEntry (entered f.name) f.max = true)
    (hhigh : resolveHighest s override ≤ s.defaultHighest) :
    calculateSubject s entered override =
      .ok ((s.fields.map (fun f => entryVal (entered f.name))).sum)
        ((s.fields.map (fun f => entryVal (entered f.name))).sum
          / resolveHighest s override * 100)
        (getGradePoint ((s.fields.map (fun f => entryVal (entered f.name))).sum
          / resolveHighest s override * 100)) := by
  unfold calculateSubject
  rw [loopFields_of_all_valid entered s.fields 0 hvalid]
  simp only [zero_add, if_neg (not_lt.mpr hhigh)]

/-- Claim C2: when every field of the subject has an entered value that is
present, numeric, non-negative and at most the field's max, and the resolved
highest does not exceed `defaultHighest`, `calculateSubject` succeeds with
totalMarks the sum of the entered values, percentage = totalMarks / highest *
100, gradePoint = getGradePoint percentage, and records that grade point
against the subject's id in the shared grade-point map. -/
theorem C2_calculateSubject_ok (gps : ℕ → Option ℚ) (s : Subject)
    (entered : String → EnteredValue) (override : Option ℚ)
    (hvalid : ∀ f ∈ s.fields, validEntry (entered f.name) f.max = true)
    (hhigh : resolveHighest s override ≤ s.defaultHighest) :
    calculateSubject s entered override =
      .ok ((s.fields.map (fun f => entryVal (entered f.name))).sum)
        ((s.fields.map (fun f => entryVal (entered f.name))).sum
          / resolveHighest s override * 100)
        (getGradePoint ((s.fields.map (fun f => entryVal (entered f.name))).sum
          / resolveHighest s override * 100)) ∧
    (calculateSubjectRun gps s entered override).2 s.id =
      some (getGradePoint ((s.fields.map (fun f => entryVal (entered f.name))).sum
        / resolveHighest s override * 100)) := by
  have hmain := calculateSubject_ok_of_valid s entered override hvalid hhigh
  refine ⟨hmain, ?_⟩
  simp [calculateSubjectRun, updateGradePoint, hmain, recordedGradePoint]

/-- Witness for C2: ISE 18 and ESE 65 out of default highest 100 give total 83,
percentage 83, grade point 10, recorded against subject id 1. -/
theorem C2_calculateSubject_ok_witness :
    calculateSubject exSubject exEnteredFull none = .ok 83 83 10 ∧
    (calculateSubjectRun (fun _ => none) exSubject exEnteredFull none).2 1 = some 10 := by
  have h := C2_calculateSubject_ok (fun _ => none) exSubject exEnteredFull none
    (by decide) (by norm_num [resolveHighest, exSubject])
  have hsum : (exSubject.fields.map (fun f => entryVal (exEnteredFull f.name))).sum = 83 := by
    simp [exSubject, exEnteredFull, entryVal]
    norm_num
  have hres : resolveHighest exSubject none = 100 := by
    simp [resolveHighest, exSubject]
  have hgp : getGradePoint ((83 : ℚ) / 100 * 100) = 10 := by
    norm_num [getGradePoint]
  refine ⟨?_, ?_⟩
  · rw [h.1, hsum, hres, hgp]
    norm_num
  · have h2 := h.2
    rw [hsum, hres, hgp] at h2
    simpa [exSubject] using h2

/-- Claim C3: if any single field's entered value is missing, non-numeric,
negative, or above that field's max, `calculateSubject` fails with the
incomplete-or-invalid outcome, produces no partial result, and records grade
point 0 for the subject. -/
theorem C3_calculateSubject_invalid (gps : ℕ → Option ℚ) (s : Subject)
    (entered : String → EnteredValue) (override : Option ℚ)
    (h : ∃ f ∈ s.fields, validEntry (entered f.name) f.max = false) :
    calculateSubject s entered override = .incompleteOrInvalid ∧
    (calculateSubjectRun gps s entered override).2 s.id = some 0 := by
  have hmain : calculateSubject s entered override = .incompleteOrInvalid := by
    unfold calculateSubject
    rw [loopFields_of_invalid entered s.fields 0 h]
  exact ⟨hmain, by simp [calculateSubjectRun, updateGradePoint, hmain, recordedGradePoint]⟩

/-- Witness for C3: fields ISE (max 20) and ESE (max 80) with entered ISE 18
and ESE empty are rejected, and grade point 0 is recorded. -/
theorem C3_calculateSubject_invalid_witness :
    calculateSubject exSubject exEnteredPartial none = .incompleteOrInvalid ∧
    (calculateSubjectRun (fun _ => none) exSubject exEnteredPartial none).2 1 = some 0 := by
  have h := C3_calculateSubject_invalid (fun _ => none) exSubject exEnteredPartial none
    (by decide)
  exact ⟨h.1, by simpa using h.2⟩

/-! Highest-override resolution. -/

/-- Counterexample to claim C4: a present, numeric, nonzero override that is
not valid in the claim's sense (here −50, which is not > 0) is not replaced by
`defaultHighest`: the evaluator uses −50 as the denominator and succeeds with a
negative percentage and grade point 0, where the claim predicts denominator 100,
percentage 83 and grade point 10. -/
theorem C4_resolveHighest_counterexample :
    resolveHighest exSubject (some (-50)) ≠ exSubject.defaultHighest ∧
    resolveHighest exSubject (some (-50)) = -50 ∧
    calculateSubject exSubject exEnteredFull (some (-50)) = .ok 83 (-166) 0 := by
  have hres : resolveHighest exSubject (some (-50)) = -50 := by
    norm_num [resolveHighest]
  refine ⟨by rw [hres]; norm_num [exSubject], hres, ?_⟩
  have h := calculateSubject_ok_of_valid exSubject exEnteredFull (some (-50))
    (by decide) (by rw [hres]; norm_num [exSubject])
  have hsum : (exSubject.fields.map (fun f => entryVal (exEnteredFull f.name))).sum = 83 := by
    simp [exSubject, exEnteredFull, entryVal]
    norm_num
  rw [h, hsum, hres]
  norm_num [getGradePoint]

/-- Claim C4 (amended): the resolved highest is the override whenever it is
present, numeric, and nonzero — with no lower-bound or upper-bound validity
check at resolution time — and `defaultHighest` otherwise; when the resolved
highest exceeds `defaultHighest` (and all fields are valid, so the field check
does not fire first), evaluation fails with the exceeds-default outcome naming
`defaultHighest`, a reported error rather than a silent clamp. -/
theorem C4_resolveHighest_amended (s : Subject) (entered : String → EnteredValue)
    (override : Option ℚ) :
    ((override = none ∨ override = some 0) → resolveHighest s override = s.defaultHighest) ∧
    (∀ h : ℚ, override = some h → h ≠ 0 → resolveHighest s override = h) ∧
    ((∀ f ∈ s.fields, validEntry (entered f.name) f.max = true) →
      s.defaultHighest < resolveHighest s override →
      calculateSubject s entered override = .highestExceedsDefault s.defaultHighest) := by
  refine ⟨?_, ?_, ?_⟩
  · rintro (rfl | rfl) <;> simp [resolveHighest]
  · rintro h rfl hne
    simp [resolveHighest, hne]
  · intro hvalid hgt
    unfold calculateSubject
    rw [loopFields_of_all_valid entered s.fields 0 hvalid]
    simp only [if_pos hgt]

/-- Witness for the amended C4: default highest 100 with override 120 resolves
to 120 and is rejected naming 100. -/
theorem C4_resolveHighest_amended_witness :
    resolveHighest exSubject (some 120) = 120 ∧
    calculateSubject exSubject exEnteredFull (some 120) =
      .highestExceedsDefault 100 := by
  have h := C4_resolveHighest_amended exSubject exEnteredFull (some 120)
  have hres : resolveHighest exSubject (some 120) = 120 :=
    h.2.1 120 rfl (by norm_num)
  refine ⟨hres, ?_⟩
  have hfail := h.2.2 (by decide) (by rw [hres]; norm_num [exSubject])
  simpa [exSubject] using hfail

/-! SGPA aggregation. -/

theorem sgpaFold_eq (gps : ℕ → Option ℚ) :
    ∀ (subjects : List Subject) (a b : ℚ),
      subjects.foldl
        (fun acc s => (acc.1 + ((gps s.id).getD 0) * s.credits, acc.2 + s.credits))
        (a, b) =
      (a + (subjects.map (fun s => ((gps s.id).getD 0) * s.credits)).sum,
       b + (subjects.map (fun s => s.credits)).sum) := by
  intro subjects
  induction subjects with
  | nil => intro a b; simp
  | cons s rest ih =>
    intro a b
    simp only [List.foldl_cons, List.map_cons, List.sum_cons, ih]
    rw [Prod.mk.injEq]
    constructor <;> ring

/-- Claim C5: the SGPA aggregation computes Σ(gradePoint·credits) / Σ(credits)
over the current subjects, substituting grade point 0 for any subject with no
recorded grade point (full credits still counted); for the empty subject list
the denominator Σ(credits) is 0, so the quotient is undefined in real
arithmetic (NaN in the implementation). -/
theorem C5_sgpa_aggregation (gps : ℕ → Option ℚ) (subjects : List Subject) :
    calculateOverallSGPA gps subjects =
      (subjects.map (fun s => ((gps s.id).getD 0) * s.credits)).sum /
      (subjects.map (fun s => s.credits)).sum ∧
    (subjects = [] → (sgpaFold gps subjects).2 = 0) := by
  have hfold : sgpaFold gps subjects =
      ((subjects.map (fun s => ((gps s.id).getD 0) * s.credits)).sum,
       (subjects.map (fun s => s.credits)).sum) := by
    unfold sgpaFold
    rw [sgpaFold_eq gps subjects 0 0]
    simp
  constructor
  · unfold calculateOverallSGPA
    rw [hfold]
  · rintro rfl
    simp [sgpaFold]

/-- Witness for C5: subjects with (gradePoint 10, credits 4) and (gradePoint 8,
credits 3) give SGPA = 64/7; the empty list yields denominator 0. -/
theorem C5_sgpa_aggregation_witness :
    calculateOverallSGPA
      (fun i => if i = 1 then some 10 else if i = 2 then some 8 else none)
      [{ id := 1, name := "A", credits := 4, fields := [], defaultHighest := 100 },
       { id := 2, name := "B", credits := 3, fields := [], defaultHighest := 100 }] = 64 / 7 ∧
    (sgpaFold (fun _ => none) ([] : List Subject)).2 = 0 := by
  constructor
  · rw [(C5_sgpa_aggregation _ _).1]
    norm_num
  · exact (C5_sgpa_aggregation (fun _ => none) []).2 rfl

/-! CGPA aggregation. -/

/-- Spec-side view of the entries `calculateCGPA` accumulates. -/
def filteredEntries (l : List SemEntry) : List SemEntry :=
  l.filter passesFilter

theorem cgpaLoop_eq_of_le (l : List SemEntry) :
    ∀ (a b : ℚ) (n : ℕ),
      (∀ e ∈ filteredEntries l, entrySgpa e ≤ 10) →
      cgpaLoop l a b n =
        if n + (filteredEntries l).length = 0 then .noValidSemesters
        else .ok
          ((a + ((filteredEntries l).map (fun e => entrySgpa e * entryCredits e)).sum) /
           (b + ((filteredEntries l).map entryCredits).sum)) := by
  induction l with
  | nil =>
    intro a b n _
    simp [cgpaLoop, filteredEntries]
  | cons e rest ih =>
    intro a b n hle
    cases hs : e.sgpa with
    | none =>
      have hpf : passesFilter e = false := by simp [passesFilter, hs]
      have hfe : filteredEntries (e :: rest) = filteredEntries rest := by
        simp [filteredEntries, List.filter_cons, hpf]
      rw [hfe] at hle ⊢
      cases hc : e.credits <;> · simp only [cgpaLoop, hs, hc]; exact ih a b n hle
    | some s =>
      cases hc : e.credits with
      | none =>
        have hpf : passesFilter e = false := by simp [passesFilter, hs, hc]
        have hfe : filteredEntries (e :: rest) = filteredEntries rest := by
          simp [filteredEntries, List.filter_cons, hpf]
        rw [hfe] at hle ⊢
        simp only [cgpaLoop, hs, hc]
        exact ih a b n hle
      | some c =>
        by_cases hpos : 0 < s ∧ 0 < c
        · have hpf : passesFilter e = true := by
            simp [passesFilter, hs, hc, hpos.1, hpos.2]
          have hfe : filteredEntries (e :: rest) = e :: filteredEntries rest := by
            simp [filteredEntries, List.filter_cons, hpf]
          have hse : entrySgpa e = s := by simp [entrySgpa, hs]
          have hce : entryCredits e = c := by simp [entryCredits, hc]
          have hs10 : s ≤ 10 := by
            have := hle e (by rw [hfe]; exact List.mem_cons_self e _)
            rwa [hse] at this
          have hrest : ∀ e' ∈ filteredEntries rest, entrySgpa e' ≤ 10 := by
            intro e' he'
            exact hle e' (by rw [hfe]; exact List.mem_cons_of_mem e he')
          simp only [cgpaLoop, hs, hc, if_pos hpos, if_neg (not_lt.mpr hs10)]
          rw [ih (a + s * c) (b + c) (n + 1) hrest, hfe]
          simp only [List.map_cons, List.sum_cons, List.length_cons, hse, hce]
          rw [if_neg (by omega), if_neg (by omega)]
          congr 1
          ring
        · have hpf : passesFilter e = false := by
            simp only [passesFilter, hs, hc]
            simpa using hpos
          have hfe : filteredEntries (e :: rest) = filteredEntries rest := by
            simp [filteredEntries, List.filter_cons, hpf]
          rw [hfe] at hle ⊢
          simp only [cgpaLoop, hs, hc, if_neg hpos]
          exact ih a b n hle

/-- Counterexample to claim C6: the single entry (semester 1, sgpa 11,
credits 2) passes the sgpa > 0 ∧ credits > 0 filter, so the claim promises the
weighted mean 11, but `calculateCGPA` instead aborts with the out-of-range
failure. -/
theorem C6_cgpa_counterexample :
    filteredEntries [⟨1, some 11, some 2⟩] = [⟨1, some 11, some 2⟩] ∧
    calculateCGPA [⟨1, some 11, some 2⟩] = .sgpaOutOfRange 1 ∧
    calculateCGPA [⟨1, some 11, some 2⟩] ≠ .ok ((11 * 2) / 2) := by
  have h : calculateCGPA [⟨1, some 11, some 2⟩] = .sgpaOutOfRange 1 := by
    norm_num [calculateCGPA, cgpaLoop]
  refine ⟨by simp [filteredEntries, passesFilter], h, ?_⟩
  rw [h]
  simp

/-- Claim C6 (amended): `calculateCGPA` filters the semester entries to those
with numeric values, sgpa > 0 and credits > 0, fails with the no-valid-semesters
outcome when no entry passes the filter, and — provided no filtered entry has
sgpa > 10 — otherwise returns Σ(sgpa·credits) / Σ(credits) over exactly the
filtered entries. -/
theorem C6_cgpa_filter (l : List SemEntry)
    (hle : ∀ e ∈ filteredEntries l, entrySgpa e ≤ 10) :
    (filteredEntries l = [] → calculateCGPA l = .noValidSemesters) ∧
    (filteredEntries l ≠ [] →
      calculateCGPA l = .ok
        (((filteredEntries l).map (fun e => entrySgpa e * entryCredits e)).sum /
         ((filteredEntries l).map entryCredits).sum)) := by
  have h := cgpaLoop_eq_of_le l 0 0 0 hle
  constructor
  · intro hemp
    unfold calculateCGPA
    rw [h, hemp]
    simp
  · intro hne
    unfold calculateCGPA
    rw [h]
    have hlen : (filteredEntries l).length ≠ 0 := by
      simpa [List.length_eq_zero] using hne
    rw [if_neg (by omega)]
    norm_num

/-- Witness for the amended C6: semesters (sgpa 9.14, credits 22) and
(sgpa 8.5, credits 20) give CGPA = 9277/1050 ≈ 8.84; an all-blank row list
gives the no-valid-semesters failure. -/
theorem C6_cgpa_filter_witness :
    calculateCGPA [⟨1, some (457/50), some 22⟩, ⟨2, some (17/2), some 20⟩] =
      .ok (9277 / 1050) ∧
    calculateCGPA [⟨1, none, none⟩, ⟨2, some 0, some 0⟩] = .noValidSemesters := by
  have hpf1 : passesFilter ⟨1, some (457/50), some 22⟩ = true := by
    simp only [passesFilter, decide_eq_true_eq]
    norm_num
  have hpf2 : passesFilter ⟨2, some (17/2), some 20⟩ = true := by
    simp only [passesFilter, decide_eq_true_eq]
    norm_num
  have hf : filteredEntries [⟨1, some (457/50), some 22⟩, ⟨2, some (17/2), some 20⟩] =
      [⟨1, some (457/50), some 22⟩, ⟨2, some (17/2), some 20⟩] := by
    simp [filteredEntries, List.filter_cons, hpf1, hpf2]
  have hpf3 : passesFilter ⟨1, none, none⟩ = false := by
    simp [passesFilter]
  have hpf4 : passesFilter ⟨2, some 0, some 0⟩ = false := by
    simp [passesFilter]
  have hf2 : filteredEntries [⟨1, none, none⟩, ⟨2, some 0, some 0⟩] = [] := by
    simp [filteredEntries, List.filter_cons, hpf3, hpf4]
  constructor
  · have h := C6_cgpa_filter [⟨1, some (457/50), some 22⟩, ⟨2, some (17/2), some 20⟩]
      (by
        intro e he
        rw [hf] at he
        simp only [List.mem_cons, List.mem_singleton, List.not_mem_nil, or_false] at he
        rcases he with rfl | rfl <;> · simp only [entrySgpa, Option.getD_some]; norm_num)
    rw [h.2 (by rw [hf]; simp), hf]
    simp only [List.map_cons, List.map_nil, List.sum_cons, List.sum_nil,
      entrySgpa, entryCredits, Option.getD_some]
    norm_num
  · have h := C6_cgpa_filter [⟨1, none, none⟩, ⟨2, some 0, some 0⟩]
      (by intro e he; rw [hf2] at he; simp at he)
    exact h.1 hf2

/-- Counterexample to claim C7: the entry (semester 1, sgpa 10.5, credits 0)
has sgpa > 10, yet `calculateCGPA` does not fail — the entry is filtered out by
the credits > 0 test before the range check, and the remaining valid semester
yields CGPA 9. -/
theorem C7_cgpa_counterexample :
    (10 : ℚ) < entrySgpa ⟨1, some (21/2), some 0⟩ ∧
    calculateCGPA [⟨1, some (21/2), some 0⟩, ⟨2, some 9, some 3⟩] = .ok 9 ∧
    calculateCGPA [⟨1, some (21/2), some 0⟩, ⟨2, some 9, some 3⟩] ≠
      .sgpaOutOfRange 1 := by
  have h : calculateCGPA [⟨1, some (21/2), some 0⟩, ⟨2, some 9, some 3⟩] = .ok 9 := by
    norm_num [calculateCGPA, cgpaLoop]
  refine ⟨by norm_num [entrySgpa], h, ?_⟩
  rw [h]
  simp

theorem cgpaLoop_abort (l : List SemEntry) :
    ∀ (a b : ℚ) (n : ℕ) (e0 : SemEntry),
      (filteredEntries l).find? (fun e => decide (10 < entrySgpa e)) = some e0 →
      cgpaLoop l a b n = .sgpaOutOfRange e0.sem := by
  induction l with
  | nil =>
    intro a b n e0 h
    simp [filteredEntries] at h
  | cons e rest ih =>
    intro a b n e0 h
    cases hs : e.sgpa with
    | none =>
      have hpf : passesFilter e = false := by simp [passesFilter, hs]
      rw [show filteredEntries (e :: rest) = filteredEntries rest by
        simp [filteredEntries, List.filter_cons, hpf]] at h
      cases hc : e.credits <;> · simp only [cgpaLoop, hs, hc]; exact ih a b n e0 h
    | some s =>
      cases hc : e.credits with
      | none =>
        have hpf : passesFilter e = false := by simp [passesFilter, hs, hc]
        rw [show filteredEntries (e :: rest) = filteredEntries rest by
          simp [filteredEntries, List.filter_cons, hpf]] at h
        simp only [cgpaLoop, hs, hc]
        exact ih a b n e0 h
      | some c =>
        by_cases hpos : 0 < s ∧ 0 < c
        · have hpf : passesFilter e = true := by
            simp [passesFilter, hs, hc, hpos.1, hpos.2]
          have hse : entrySgpa e = s := by simp [entrySgpa, hs]
          rw [show filteredEntries (e :: rest) = e :: filteredEntries rest by
            simp [filteredEntries, List.filter_cons, hpf]] at h
          by_cases h10 : 10 < s
          · rw [List.find?_cons_of_pos _ (by simp [hse, h10])] at h
            have he0 : e = e0 := by simpa using h
            subst he0
            simp only [cgpaLoop, hs, hc, if_pos hpos, if_pos h10]
          · rw [List.find?_cons_of_neg _ (by simp [hse, h10])] at h
            simp only [cgpaLoop, hs, hc, if_pos hpos, if_neg h10]
            exact ih _ _ _ e0 h
        · have hpf : passesFilter e = false := by
            simp only [passesFilter, hs, hc]
            simpa using hpos
          rw [show filteredEntries (e :: rest) = filteredEntries rest by
            simp [filteredEntries, List.filter_cons, hpf]] at h
          simp only [cgpaLoop, hs, hc, if_neg hpos]
          exact ih a b n e0 h

/-- Claim C7 (amended): when some entry passing the sgpa > 0 ∧ credits > 0
filter has sgpa > 10, `calculateCGPA` fails with the out-of-range outcome
naming the first such semester, aborting the entire computation regardless of
how many other entries are valid; entries with sgpa > 10 that do not pass the
filter (credits ≤ 0 or non-numeric) are skipped, not checked. -/
theorem C7_cgpa_range_abort (l : List SemEntry) (e0 : SemEntry)
    (h : (filteredEntries l).find? (fun e => decide (10 < entrySgpa e)) = some e0) :
    calculateCGPA l = .sgpaOutOfRange e0.sem :=
  cgpaLoop_abort l 0 0 0 e0 h

/-- Witness for the amended C7: semester 1 with sgpa 10.5 and credits 2 aborts
the whole computation even though semester 2 is valid. -/
theorem C7_cgpa_range_abort_witness :
    calculateCGPA [⟨1, some (21/2), some 2⟩, ⟨2, some 9, some 3⟩] =
      .sgpaOutOfRange 1 := by
  have hpf1 : passesFilter ⟨1, some (21/2), some 2⟩ = true := by
    simp only [passesFilter, decide_eq_true_eq]
    norm_num
  have hpf2 : passesFilter ⟨2, some 9, some 3⟩ = true := by
    simp only [passesFilter, decide_eq_true_eq]
    norm_num
  have hf : filteredEntries [⟨1, some (21/2), some 2⟩, ⟨2, some 9, some 3⟩] =
      [⟨1, some (21/2), some 2⟩, ⟨2, some 9, some 3⟩] := by
    simp [filteredEntries, List.filter_cons, hpf1, hpf2]
  have hfind : (filteredEntries [⟨1, some (21/2), some 2⟩, ⟨2, some 9, some 3⟩]).find?
      (fun e => decide (10 < entrySgpa e)) = some ⟨1, some (21/2), some 2⟩ := by
    rw [hf]
    exact List.find?_cons_of_pos _
      (by simp only [entrySgpa, Option.getD_some, decide_eq_true_eq]; norm_num)
  exact C7_cgpa_range_abort _ _ hfind

theorem cgpaLoop_ok_bounds (l : List SemEntry) :
    ∀ (a b : ℚ) (n : ℕ) (c : ℚ),
      0 ≤ a → 0 ≤ b → a ≤ 10 * b → (n ≠ 0 → 0 < a ∧ 0 < b) →
      cgpaLoop l a b n = .ok c → 0 < c ∧ c ≤ 10 := by
  induction l with
  | nil =>
    intro a b n c ha hb hab hn heq
    by_cases hn0 : n = 0
    · simp [cgpaLoop, hn0] at heq
    · simp only [cgpaLoop, if_neg hn0] at heq
      have hc : a / b = c := by simpa using heq
      obtain ⟨hapos, hbpos⟩ := hn hn0
      subst hc
      exact ⟨div_pos hapos hbpos, by rw [div_le_iff₀ hbpos]; linarith⟩
  | cons e rest ih =>
    intro a b n c ha hb hab hn heq
    cases hs : e.sgpa with
    | none =>
      cases hc : e.credits <;>
        · rw [show cgpaLoop (e :: rest) a b n = cgpaLoop rest a b n by
            simp only [cgpaLoop, hs, hc]] at heq
          exact ih a b n c ha hb hab hn heq
    | some s =>
      cases hc : e.credits with
      | none =>
        rw [show cgpaLoop (e :: rest) a b n = cgpaLoop rest a b n by
          simp only [cgpaLoop, hs, hc]] at heq
        exact ih a b n c ha hb hab hn heq
      | some cr =>
        by_cases hpos : 0 < s ∧ 0 < cr
        · by_cases h10 : 10 < s
          · simp [cgpaLoop, hs, hc, if_pos hpos, if_pos h10] at heq
          · rw [show cgpaLoop (e :: rest) a b n =
                cgpaLoop rest (a + s * cr) (b + cr) (n + 1) by
              simp only [cgpaLoop, hs, hc, if_pos hpos, if_neg h10]] at heq
            have hscr : 0 < s * cr := mul_pos hpos.1 hpos.2
            refine ih (a + s * cr) (b + cr) (n + 1) c (by linarith) (by linarith) ?_
              (fun _ => ⟨by linarith, by linarith [hpos.2]⟩) heq
            have : s * cr ≤ 10 * cr :=
              mul_le_mul_of_nonneg_right (not_lt.mp h10) (le_of_lt hpos.2)
            linarith
        · rw [show cgpaLoop (e :: rest) a b n = cgpaLoop rest a b n by
            simp only [cgpaLoop, hs, hc, if_neg hpos]] at heq
          exact ih a b n c ha hb hab hn heq

/-- Claim C10: whenever `calculateCGPA` succeeds with a numeric CGPA, that
value lies in (0, 10]: each accumulated entry has 0 < sgpa ≤ 10 and
credits > 0, so the credit-weighted mean is strictly positive and at most
10. -/
theorem C10_cgpa_in_range (l : List SemEntry) (c : ℚ)
    (h : calculateCGPA l = .ok c) : 0 < c ∧ c ≤ 10 :=
  cgpaLoop_ok_bounds l 0 0 0 c le_rfl le_rfl (by norm_num)
    (fun hn => absurd rfl hn) h

/-- Witness for C10: a single semester (sgpa 9, credits 3) succeeds with CGPA
9, which is in (0, 10]. -/
theorem C10_cgpa_in_range_witness :
    calculateCGPA [⟨2, some 9, some 3⟩] = .ok 9 ∧ (0 : ℚ) < 9 ∧ (9 : ℚ) ≤ 10 := by
  have h : calculateCGPA [⟨2, some 9, some 3⟩] = .ok 9 := by
    norm_num [calculateCGPA, cgpaLoop]
  exact ⟨h, (C10_cgpa_in_range [⟨2, some 9, some 3⟩] 9 h).1,
    (C10_cgpa_in_range [⟨2, some 9, some 3⟩] 9 h).2⟩

/-! Exam-score predictor. -/

/-- Spec-side current total for the predictor: the sum of the non-ESE entered
values, a non-numeric or empty field contributing 0. -/
def specCurrentTotal (s : Subject) (entered : String → EnteredValue) : ℚ :=
  ((s.fields.filter (fun f => f.name ≠ "ese")).map
    (fun f => entryVal (entered f.name))).sum

/-- Spec-side verdict for one target, in the claim's order: already secured
when the needed score is ≤ 0, the needed integer score when it is at most the
final field's max, and not achievable otherwise. -/
def specVerdict (needed : ℤ) (eseMax : ℚ) : Verdict :=
  if needed ≤ 0 then .secured
  else if (needed : ℚ) ≤ eseMax then .need needed
  else .notPossible

theorem predVerdict_eq_specVerdict (needed : ℤ) (eseMax : ℚ) (hm : 0 ≤ eseMax) :
    predVerdict needed eseMax = specVerdict needed eseMax := by
  unfold predVerdict specVerdict
  by_cases h0 : needed ≤ 0
  · have : (needed : ℚ) ≤ eseMax := le_trans (by exact_mod_cast h0) hm
    rw [if_pos this, if_pos h0, if_pos h0]
  · by_cases hle : (needed : ℚ) ≤ eseMax
    · rw [if_pos hle, if_neg h0, if_neg h0, if_pos hle]
    · rw [if_neg hle, if_neg h0, if_neg hle]

theorem predictionAccum_foldl (entered : String → EnteredValue) :
    ∀ (fields : List SubjectField) (a : ℚ) (b : Bool),
      fields.foldl (predStep entered) (a, b) =
      (a + ((fields.filter (fun f => f.name ≠ "ese")).map
          (fun f => entryVal (entered f.name))).sum,
       b || fields.any
          (fun f => decide (f.name ≠ "ese") && decide (entered f.name ≠ EnteredValue.empty))) := by
  intro fields
  induction fields with
  | nil => intro a b; simp
  | cons f rest ih =>
    intro a b
    rw [List.foldl_cons]
    by_cases hn : f.name = "ese"
    · rw [show predStep entered (a, b) f = (a, b) by simp [predStep, hn]]
      rw [ih a b]
      simp [List.filter_cons, List.any_cons, hn]
    · cases he : entered f.name with
      | empty =>
        rw [show predStep entered (a, b) f = (a, b) by simp [predStep, hn, he]]
        rw [ih a b]
        simp [List.filter_cons, List.any_cons, hn, he, entryVal]
      | invalid =>
        rw [show predStep entered (a, b) f = (a, true) by simp [predStep, hn, he]]
        rw [ih a true]
        simp [List.filter_cons, List.any_cons, hn, he, entryVal]
      | num v =>
        rw [show predStep entered (a, b) f = (a + v, true) by simp [predStep, hn, he]]
        rw [ih (a + v) true]
        simp [List.filter_cons, List.any_cons, hn, he, entryVal, add_assoc]

theorem predictionAccum_fst (s : Subject) (entered : String → EnteredValue) :
    (predictionAccum s entered).1 = specCurrentTotal s entered := by
  unfold predictionAccum specCurrentTotal
  rw [predictionAccum_foldl entered s.fields 0 false]
  simp

theorem predictionAccum_snd_false_iff (s : Subject) (entered : String → EnteredValue) :
    (predictionAccum s entered).2 = false ↔
      ∀ f ∈ s.fields, f.name ≠ "ese" → entered f.name = .empty := by
  unfold predictionAccum
  rw [predictionAccum_foldl entered s.fields 0 false]
  simp only [Bool.false_or, List.any_eq_false, Bool.and_eq_true, decide_eq_true_eq,
    not_and, not_ne_iff]

/-- Claim C8: whenever `updatePrediction` produces a prediction (the subject
has an "ese" field of non-negative max, the ESE input is still empty, and some
non-ESE field is filled), the current total is the sum of the numeric non-ESE
entered values (individually invalid fields contributing 0 without aborting),
the denominator is resolved exactly as in the evaluator with no exceeds-default
failure, the needed scores are ceil(0.8·highest − currentTotal) and
ceil(0.7·highest − currentTotal), and each target is reported as already
secured when its needed score is ≤ 0, as the needed integer score when it is at
most the ESE max, and as not achievable otherwise — both verdicts emitted
together. -/
theorem C8_updatePrediction_formula (s : Subject) (entered : String → EnteredValue)
    (override : Option ℚ) (eseField : SubjectField)
    (hfind : s.fields.find? (fun f => f.name == "ese") = some eseField)
    (hese : entered "ese" = .empty)
    (hfilled : (predictionAccum s entered).2 = true)
    (hmax : 0 ≤ eseField.max) :
    updatePrediction s entered override =
      .result
        (specVerdict ⌈(0.8 : ℚ) * resolveHighest s override - specCurrentTotal s entered⌉
          eseField.max)
        (specVerdict ⌈(0.7 : ℚ) * resolveHighest s override - specCurrentTotal s entered⌉
          eseField.max) := by
  unfold updatePrediction
  simp only [hfind, hese, ne_eq, not_true_eq_false, if_false, hfilled,
    Bool.true_eq_false, predictionAccum_fst s entered]
  rw [predVerdict_eq_specVerdict _ _ hmax, predVerdict_eq_specVerdict _ _ hmax]

/-- Witness for C8: ISE 15 entered out of max 20, ESE max 80, default highest
100 — need 65 in ESE for a 10-pointer and 55 for a 9-pointer. -/
theorem C8_updatePrediction_formula_witness :
    updatePrediction exSubject exEnteredPred none = .result (.need 65) (.need 55) := by
  have hfind : exSubject.fields.find? (fun f => f.name == "ese") =
      some ⟨"ese", "ESE (80)", 80⟩ := by
    simp [exSubject, List.find?]
  have h := C8_updatePrediction_formula exSubject exEnteredPred none
    ⟨"ese", "ESE (80)", 80⟩ hfind (by simp [exEnteredPred])
    (by
      rw [show (predictionAccum exSubject exEnteredPred).2 =
        (predictionAccum exSubject exEnteredPred).2 from rfl]
      unfold predictionAccum
      rw [predictionAccum_foldl exEnteredPred exSubject.fields 0 false]
      simp [exSubject, exEnteredPred])
    (by norm_num)
  rw [h]
  have htot : specCurrentTotal exSubject exEnteredPred = 15 := by
    unfold specCurrentTotal
    simp [exSubject, exEnteredPred, entryVal]
  have hres : resolveHighest exSubject none = 100 := by
    simp [resolveHighest, exSubject]
  rw [htot, hres]
  have h10 : ((0.8 : ℚ) * 100 - 15) = ((65 : ℤ) : ℚ) := by norm_num
  have h9 : ((0.7 : ℚ) * 100 - 15) = ((55 : ℤ) : ℚ) := by norm_num
  rw [h10, h9, Int.ceil_intCast, Int.ceil_intCast]
  unfold specVerdict
  norm_num

/-- Claim C9: `updatePrediction` produces no prediction exactly when the
subject has no field named "ese", or the ESE input already has an entered
value, or no non-ESE field has any entered value yet; in all other cases a
prediction is produced. -/
theorem C9_updatePrediction_empty_iff (s : Subject) (entered : String → EnteredValue)
    (override : Option ℚ) :
    updatePrediction s entered override = .empty ↔
      ((∀ f ∈ s.fields, f.name ≠ "ese") ∨
       entered "ese" ≠ .empty ∨
       (∀ f ∈ s.fields, f.name ≠ "ese" → entered f.name = .empty)) := by
  unfold updatePrediction
  cases hfind : s.fields.find? (fun f => f.name == "ese") with
  | none =>
    refine iff_of_true rfl (Or.inl ?_)
    intro f hf
    have := List.find?_eq_none.mp hfind f hf
    simpa using this
  | some eseField =>
    by_cases hese : entered "ese" = .empty
    · by_cases hfill : (predictionAccum s entered).2 = false
      · refine iff_of_true ?_
          (Or.inr (Or.inr ((predictionAccum_snd_false_iff s entered).mp hfill)))
        simp [hese, hfill]
      · have hfill' : (predictionAccum s entered).2 = true := by
          simpa using hfill
        refine iff_of_false ?_ ?_
        · simp [hese, hfill']
        · rintro (hA | hB | hC)
          · have hmem := List.mem_of_find?_eq_some hfind
            have hname : eseField.name = "ese" := by
              have := List.find?_some hfind
              simpa using this
            exact hA eseField hmem hname
          · exact hB hese
          · exact hfill ((predictionAccum_snd_false_iff s entered).mpr hC)
    · refine iff_of_true ?_ (Or.inr (Or.inl hese))
      simp [hese]

/-- Witness for C9: a subject with no "ese" component yields no prediction; the
example subject with the ESE score already entered also yields no prediction. -/
theorem C9_updatePrediction_empty_iff_witness :
    updatePrediction
      { id := 2, name := "NoEse", credits := 2,
        fields := [⟨"ise", "ISE (20)", 20⟩], defaultHighest := 20 }
      (fun _ => .empty) none = .empty ∧
    updatePrediction exSubject exEnteredFull none = .empty := by
  constructor
  · exact (C9_updatePrediction_empty_iff _ _ _).mpr
      (Or.inl (by intro f hf; simp at hf; subst hf; simp))
  · exact (C9_updatePrediction_empty_iff _ _ _).mpr
      (Or.inr (Or.inl (by simp [exEnteredFull])))

end CGPACalc
